import Mathlib

/-!
# Verification of the `monde` schema/cleaning/validation core

This file gives a shallow embedding in Lean 4 of the parts of the `monde`
repository that the checked claims are about, together with theorems settling
each claim.

Conventions used throughout:

* Python strings are embedded as `List Char`; the Python string methods used
  by the code (`str.strip`, `str.lstrip`, `str.rstrip`, `str.replace`,
  `str.upper`) are given faithful ASCII-scope translations below.
* Fallible Python code (things that can raise) is embedded with `Except`;
  the error type records which Python exception class is raised.
* pandas / pandera / skimage are external libraries whose sources are not part
  of the repository; where their behaviour decides a claim it is modelled
  explicitly, with a comment saying what is modelled and from where.
-/

namespace Monde

/-! ## Python string primitives (ASCII scope) -/

/-- The Python whitespace set `string.whitespace`, restricted to ASCII
(the claims only involve ASCII input). -/
def isPyWhitespace (c : Char) : Bool :=
  c = ' ' || c = '\t' || c = '\n' || c = '\x0d' || c = '\x0b' || c = '\x0c'

/-- Embedding of `string.digits`. -/
def isPyDigit (c : Char) : Bool :=
  '0' ≤ c && c ≤ '9'

/-- Embedding of `s.lstrip(chars)`: drop from the left every leading character in the set. -/
def pyLstrip (p : Char → Bool) (s : List Char) : List Char :=
  s.dropWhile p

/-- Embedding of `s.rstrip(chars)`: drop from the right every trailing character in the set. -/
def pyRstrip (p : Char → Bool) (s : List Char) : List Char :=
  (s.reverse.dropWhile p).reverse

/-- Embedding of `s.strip(chars)`: strip the character set from both ends. -/
def pyStrip (p : Char → Bool) (s : List Char) : List Char :=
  pyRstrip p (pyLstrip p s)

/-- Embedding of `s.strip()` with no argument strips whitespace. -/
def pyStripWs (s : List Char) : List Char :=
  pyStrip isPyWhitespace s

/-- Embedding of `s.replace(old, "")` for a single-character `old`: remove every
occurrence of the character. -/
def pyRemoveChar (ch : Char) (s : List Char) : List Char :=
  s.filter (fun c => c ≠ ch)

/-- Embedding of `s.upper()` (ASCII scope). -/
def pyUpper (s : List Char) : List Char :=
  s.map Char.toUpper

/-! ## `monde.transform.simple.CleanIntegers` (cell level)

Source (`src/monde/transform/simple.py`, `CleanIntegers.transform`): for each
string-typed integer column,

```
x.str.strip()            # Always strip whitespace
 .str.lstrip("0")       # Strip zeroes from the left
 .str.rstrip("-.")      # Strip non-numerics from the right
 .str.replace(",", "")  # ! ASSUME thousands separator is a ","
 .replace(if nullable then "" -> None else "" -> 0)
 .astype(if nullable then "Int64" else "int64")
```

The pandas `str` accessor applies each step cell-wise, so the column transform
is the cell function mapped over the column.  The final `astype` converts each
remaining string with Python `int(...)` semantics and raises `ValueError` when
a cell is not an integer literal.
-/

/-- The pure string-cleaning part of `CleanIntegers.transform`
(strip whitespace, strip leading zeros, strip trailing `-`/`.`,
remove commas), in the order the source applies it. -/
def cleanIntChars (s : List Char) : List Char :=
  pyRemoveChar ','
    (pyRstrip (fun c => c = '-' || c = '.')
      (pyLstrip (fun c => c = '0')
        (pyStripWs s)))

/-- Value of a digit character. -/
def digitVal (c : Char) : Nat :=
  c.toNat - '0'.toNat

/-- Natural number denoted by a digit string. -/
def digitsToNat (ds : List Char) : Nat :=
  ds.foldl (fun acc c => 10 * acc + digitVal c) 0

/-- Conversion of a string to an integer as performed by
`astype("int64")` on a string column, i.e. Python `int(s)`:
optional surrounding whitespace, an optional sign, then one or more digits;
anything else raises `ValueError` (here: `none`). -/
def pyParseInt (s : List Char) : Option Int :=
  match pyStripWs s with
  | [] => none
  | c :: ds =>
      if c = '-' then
        if ds ≠ [] ∧ ds.all isPyDigit then some (-(digitsToNat ds : Int)) else none
      else if c = '+' then
        if ds ≠ [] ∧ ds.all isPyDigit then some ((digitsToNat ds : Int)) else none
      else
        if isPyDigit c ∧ ds.all isPyDigit then some ((digitsToNat (c :: ds) : Int))
        else none

/-- Syntactic characterization of the strings accepted by `pyParseInt`:
after trimming whitespace the string is an optional sign followed by a
non-empty run of digits. -/
def isIntLiteral (s : List Char) : Bool :=
  match pyStripWs s with
  | [] => false
  | c :: ds =>
      if c = '-' then decide (ds ≠ [] ∧ ds.all isPyDigit)
      else if c = '+' then decide (ds ≠ [] ∧ ds.all isPyDigit)
      else decide (isPyDigit c ∧ ds.all isPyDigit)

/-- Cell-level embedding of `CleanIntegers.transform`: clean the string, map
the empty result to `0` (non-nullable) or null (nullable), and otherwise cast
with integer parsing; a non-literal remainder raises (the `astype` step). -/
def cleanIntCell (nullable : Bool) (s : List Char) : Except Unit (Option Int) :=
  let c := cleanIntChars s
  if c = [] then
    .ok (if nullable then none else some 0)
  else
    match pyParseInt c with
    | some k => .ok (some k)
    | none => .error ()

/-- The character vocabulary named by the claim: `[0-9,.\- ]` plus whitespace. -/
def inIntVocab (c : Char) : Bool :=
  isPyDigit c || c = ',' || c = '.' || c = '-' || isPyWhitespace c

/-! ## `monde.transform.simple.CleanBooleans` (cell level)

Source (`src/monde/transform/simple.py`, `CleanBooleans.transform`): for each
object-typed boolean column,

```
X[column] = X[column].str.strip().str.upper()
X[column] = X[column].replace(TRUTHY, 1)
X[column] = X[column].replace(FALSEY, 0)
X[column] = X[column].replace(UNKNOWN, pd.NA)
X[column] = X[column].astype("boolean")
```

`Series.replace(list, v)` substitutes `v` for cells whose value is equal to a
member of the list.  `astype("boolean")` builds a pandas `BooleanArray`; its
`coerce_to_array` accepts boolean-like and integer-like values and `pd.NA`,
and raises `TypeError` for string values (modelled: the `.str` case below is
an error).
-/

/-- A cell of an object column during `CleanBooleans.transform`: still a
string, already replaced by an integer, or replaced by `pd.NA`. -/
inductive BCell where
  | str (v : List Char)
  | int (n : Int)
  | na
deriving DecidableEq, Repr

/-- List `CleanBooleans.TRUTHY`. -/
def TRUTHY : List (List Char) :=
  ["TRUE".data, "T".data, "YES".data, "Y".data]

/-- List `CleanBooleans.FALSEY`. -/
def FALSEY : List (List Char) :=
  ["FALSE".data, "F".data, "NO".data, "N".data]

/-- List `CleanBooleans.UNKNOWN`. -/
def UNKNOWN : List (List Char) :=
  ["NA".data, "N/A".data, "NULL".data, "NONE".data, "(BLANK)".data,
   "U".data, "UNKNOWN".data, "".data]

/-- Embedding of `Series.replace(vals, repl)` at one cell: exact-value match. -/
def bReplace (vals : List (List Char)) (repl : BCell) (c : BCell) : BCell :=
  match c with
  | .str v => if v ∈ vals then repl else c
  | _ => c

/-- Embedding of `astype("boolean")` at one cell: integers cast through `bool(n)`,
`pd.NA` stays null, and a remaining string raises `TypeError`
(pandas `coerce_to_array`: strings are not bool-like). -/
def astypeBoolean (c : BCell) : Except Unit (Option Bool) :=
  match c with
  | .int n => .ok (some (n ≠ 0))
  | .na => .ok none
  | .str _ => .error ()

/-- Cell-level embedding of `CleanBooleans.transform`. -/
def cleanBoolCell (s : List Char) : Except Unit (Option Bool) :=
  astypeBoolean
    (bReplace UNKNOWN .na
      (bReplace FALSEY (.int 0)
        (bReplace TRUTHY (.int 1)
          (.str (pyUpper (pyStripWs s))))))

/-! ## `monde.schema.spec.field`: the field variant system and its factory

The dispatch table `SchemaFieldTypes` maps a cleaned dtype token to a
`SchemaFieldModel` subclass; the factory `SchemaField` normalizes the token
(`dtype.strip(string.digits + string.whitespace).lower()`), looks the class up
(a missing key raises `KeyError`), and runs the pydantic model validation of
that class on the raw declaration.

The pydantic model validation relevant to the claims is embedded:
* the `mode="before"` model validator `pandas_upper_type_is_nullable`, which
  reads `data["dtype"]` and `data["nullable"]` on the raw mapping (a missing
  key raises `KeyError`), and rejects an upper-cased dtype with
  `nullable=False`;
* the `name` constraints (`pattern=RE_PYTHON_IDENTIFIER` via `re.search`,
  `max_length=63`), the `str_strip_whitespace=True` model config, and the
  `no_empty_aliases` field validator;
* variant extras (`unit`, `tz`, `scale`, `symbols`, ...) take their declared
  defaults: the embedded declarations carry no extra keys, and `tz="UTC"`
  always passes `tz_in_available_timezones`.
-/

/-- The `SchemaFieldModel` subclasses of `monde.schema.spec.field`. -/
inductive FieldClass where
  | BooleanSchemaField
  | DateSchemaField
  | DatetimeSchemaField
  | DecimalSchemaField
  | CurrencySchemaField
  | CategorySchemaField
  | IntSchemaField
  | ObjectSchemaField
  | StrSchemaField
deriving DecidableEq, Repr

/-- Constant `MAX_DECIMAL_SCALE` (default of `DecimalSchemaField.scale`). -/
def MAX_DECIMAL_SCALE : ℚ := 131072

/-- Constant `MAX_DECIMAL_PRECISION` (default of `DecimalSchemaField.precision`). -/
def MAX_DECIMAL_PRECISION : ℚ := 16383

/-- Constant `sys.maxsize` (default of `StrSchemaField.size`). -/
def sysMaxsize : Int := 9223372036854775807

/-- Variant-specific attributes of each built field, with each class's
declared defaults.  `DecimalSchemaField` carries `scale`/`precision`;
`CurrencySchemaField` carries `currency`/`locale` (defaults `USD` / `en_US`). -/
inductive VariantData where
  | boolean
  | date (unit tz datefmt : String)
  | datetime (unit tz datefmt : String)
  | decimal (scale precision : ℚ)
  | currency (currency locale : String)
  | category (symbols : List String)
  | int
  | obj
  | string (size : Int) (truncate : Bool)
deriving DecidableEq, Repr

/-- The defaults each `SchemaFieldModel` subclass declares for its extras. -/
def defaultVariantData : FieldClass → VariantData
  | .BooleanSchemaField => .boolean
  | .DateSchemaField => .date "s" "UTC" "%Y-%m-%d"
  | .DatetimeSchemaField => .datetime "ns" "UTC" "%Y-%m-%d"
  | .DecimalSchemaField => .decimal MAX_DECIMAL_SCALE MAX_DECIMAL_PRECISION
  | .CurrencySchemaField => .currency "USD" "en_US"
  | .CategorySchemaField => .category []
  | .IntSchemaField => .int
  | .ObjectSchemaField => .obj
  | .StrSchemaField => .string sysMaxsize false

/-- The module-level dispatch table `SchemaFieldTypes`, entry for entry. -/
def SchemaFieldTypes : List (String × FieldClass) :=
  [("bool", .BooleanSchemaField),
   ("boolean", .BooleanSchemaField),
   ("category", .CategorySchemaField),
   ("currency", .DecimalSchemaField),
   ("date", .DateSchemaField),
   ("datetime", .DatetimeSchemaField),
   ("float", .DecimalSchemaField),
   ("decimal", .DecimalSchemaField),
   ("enum", .CategorySchemaField),
   ("int", .IntSchemaField),
   ("uint", .IntSchemaField),
   ("object", .ObjectSchemaField),
   ("string", .StrSchemaField),
   ("ssn", .StrSchemaField),
   ("zipcode", .StrSchemaField)]

/-- Embedding of `dtype.strip(string.digits + string.whitespace).lower()`. -/
def normalizeDtype (s : String) : String :=
  ((pyStrip (fun c => isPyDigit c || isPyWhitespace c) s.data).map Char.toLower).asString

/-- A raw field declaration (one entry of a schema declaration's `fields`
list).  Optional keys are `Option`-valued: `none` means the key is absent
from the mapping. -/
structure RawDecl where
  index : Int
  name : String
  title : String
  aliases : List String := []
  dtype : String
  requiredKey : Option Bool := none
  nullableKey : Option Bool := none
  protectKey : Option Bool := none
  excludeKey : Option Bool := none
deriving DecidableEq, Repr

/-- A built field (`SchemaFieldModel` instance). -/
structure FieldSpec where
  index : Int
  name : String
  title : String
  aliases : List String
  dtype : String
  required : Bool
  nullable : Bool
  protect : Bool
  exclude : Bool
  data : VariantData
deriving DecidableEq, Repr

/-- Python exceptions surfaced by schema construction. -/
inductive PyErr where
  | keyError (key : String)
  | validationError (field : String)
  | indexError
deriving DecidableEq, Repr

/-- The `mode="before"` model validator `pandas_upper_type_is_nullable`:
`dtype, nullable = data["dtype"], data["nullable"]` on the raw mapping, then
reject when `dtype[0].isupper() and not nullable`.  A declaration without a
`nullable` key raises `KeyError` here, before pydantic field defaults apply. -/
def pandasUpperTypeIsNullable (d : RawDecl) : Except PyErr RawDecl :=
  match d.nullableKey with
  | none => .error (.keyError "nullable")
  | some nb =>
    match d.dtype.data with
    | [] => .error .indexError
    | c :: _ => if c.isUpper && !nb then .error (.validationError "nullable") else .ok d

/-- A word character for `re.search` boundary purposes (`\w` ASCII scope). -/
def isWordChar (c : Char) : Bool :=
  c.isAlpha || isPyDigit c || c = '_'

/-- Start of an identifier (`[A-Za-z_]`). -/
def isIdentStart (c : Char) : Bool :=
  c.isAlpha || c = '_'

/-- Helper for `hasIdentifierToken`: scan tracking whether the previous
character was a word character. -/
def identScan (prevWord : Bool) : List Char → Bool
  | [] => false
  | c :: rest => (!prevWord && isIdentStart c) || identScan (isWordChar c) rest

/-- Embedding of `re.search(RE_PYTHON_IDENTIFIER, s)` succeeds.  The pattern is
`\b[A-Za-z_][\d\w]*\b`; since the tail can be empty and a trailing boundary
always follows a maximal word-character run, the search succeeds exactly when
some `[A-Za-z_]` character is at a word boundary. -/
def hasIdentifierToken (s : List Char) : Bool :=
  identScan false s

/-- The pydantic field constraints on `name`: pattern search and
`max_length=63`. -/
def nameOk (s : String) : Bool :=
  hasIdentifierToken s.data && s.data.length ≤ 63

/-- Embedding of `s.strip()` on a `String`. -/
def stripStr (s : String) : String :=
  (pyStripWs s.data).asString

/-- Field-level pydantic validation and construction for a given class:
strip string fields (`str_strip_whitespace=True`), check the `name`
constraints, run `no_empty_aliases`, apply the declared flag defaults, and
attach the class's variant data (extras at their defaults). -/
def buildFieldSpec (cls : FieldClass) (d : RawDecl) : Except PyErr FieldSpec :=
  let name := stripStr d.name
  if !nameOk name then .error (.validationError "name")
  else
    .ok
      { index := d.index
        name := name
        title := stripStr d.title
        aliases := (d.aliases.map stripStr).filter (fun a => a ≠ "")
        dtype := stripStr d.dtype
        required := d.requiredKey.getD false
        nullable := d.nullableKey.getD false
        protect := d.protectKey.getD false
        exclude := d.excludeKey.getD false
        data := defaultVariantData cls }

/-- The dispatch key the factory computes from a declaration:
`dtype = str(definition["dtype"]) or "object"` followed by
`dtype.strip(string.digits + string.whitespace).lower()`. -/
def factoryKey (d : RawDecl) : String :=
  normalizeDtype (if d.dtype = "" then "object" else d.dtype)

/-- The factory `SchemaField(**definition)`: compute the normalized dispatch
key, look the class up in `SchemaFieldTypes` (`KeyError` when absent — the
failure the spec names `UnknownDtype`), and `model_validate` the declaration
against that class. -/
def SchemaField (d : RawDecl) : Except PyErr FieldSpec :=
  match SchemaFieldTypes.lookup (factoryKey d) with
  | none => .error (.keyError (factoryKey d))
  | some cls => do
      let d1 ← pandasUpperTypeIsNullable d
      buildFieldSpec cls d1

/-! ## `monde.schema.spec.schema.SchemaModel.coerce_fields`

`coerce_fields` builds each field through the `SchemaField` factory and
returns the list sorted ascending by `index` (Python `sorted` with
`key=lambda f: f.index`, a stable sort).  There is no uniqueness check on
indices and no error path besides the factory's own failures.
-/

/-- Comparison used by `coerce_fields`. -/
def byIndex (a b : FieldSpec) : Prop :=
  a.index ≤ b.index

instance : DecidableRel byIndex := fun a b => Int.decLe a.index b.index

instance : IsTotal FieldSpec byIndex :=
  ⟨fun a b => Int.le_total a.index b.index⟩

instance : IsTrans FieldSpec byIndex :=
  ⟨fun _ _ _ h h2 => le_trans h h2⟩

/-- Embedding of `SchemaModel.coerce_fields`: build every field, then stable-sort by
`index`. -/
def coerceFields (decls : List RawDecl) : Except PyErr (List FieldSpec) := do
  let fs ← decls.mapM SchemaField
  pure (fs.insertionSort byIndex)

/-! ## Supporting lemmas -/

/-- Parsing via `pyParseInt` succeeds exactly on the integer-literal shapes
described by `isIntLiteral`. -/
theorem pyParseInt_isSome_iff (s : List Char) :
    (pyParseInt s).isSome = isIntLiteral s := by
  unfold pyParseInt isIntLiteral
  cases h : pyStripWs s with
  | nil => rfl
  | cons c ds =>
      show (if c = '-' then
              if ds ≠ [] ∧ ds.all isPyDigit then some (-(digitsToNat ds : Int))
              else none
            else if c = '+' then
              if ds ≠ [] ∧ ds.all isPyDigit then some ((digitsToNat ds : Int))
              else none
            else
              if isPyDigit c ∧ ds.all isPyDigit then
                some ((digitsToNat (c :: ds) : Int))
              else none).isSome =
          (if c = '-' then decide (ds ≠ [] ∧ ds.all isPyDigit)
           else if c = '+' then decide (ds ≠ [] ∧ ds.all isPyDigit)
           else decide (isPyDigit c ∧ ds.all isPyDigit))
      split_ifs <;> simp_all

/-- The error case of `cleanIntCell`, characterized: the transform raises
exactly when the cleaned string is non-empty and not an integer literal. -/
theorem cleanIntCell_error_iff (nullable : Bool) (s : List Char) :
    cleanIntCell nullable s = .error () ↔
      (cleanIntChars s ≠ [] ∧ isIntLiteral (cleanIntChars s) = false) := by
  unfold cleanIntCell
  by_cases h : cleanIntChars s = []
  · simp [h]
  · rw [← pyParseInt_isSome_iff]
    cases hp : pyParseInt (cleanIntChars s) <;> simp [h, hp]

/-! ## Claim theorems: cleaning stages -/

/-- C2 counterexample: `"00-350.2"` is drawn from the vocabulary
`[0-9,.\- ]` plus whitespace, yet `CleanIntegers.transform` raises on it —
the cleaned string `"-350.2"` is not an integer literal and the final
`astype` fails.  This refutes the claim that the transform never raises for
inputs drawn from that vocabulary. -/
theorem c2_cleanIntegers_counterexample :
    "00-350.2".data.all inIntVocab = true ∧
      cleanIntCell false "00-350.2".data = .error () := by
  exact ⟨by decide, rfl⟩

/-- C2 (amended): the integer-cleaning transform trims whitespace, strips
leading zeros, strips trailing `-`/`.`, and removes commas in that order
(`"0001,500"` non-nullable gives `1500`; `"00-350.2"` cleans to `"-350.2"`,
retaining the trailing `.2`), with the empty result mapped to 0 when
non-nullable and to null otherwise; but the final integer cast raises exactly
on those inputs whose cleaned string is non-empty and not an integer literal,
so the transform is not total over the vocabulary `[0-9,.\- ]` plus
whitespace — in particular it raises on `"00-350.2"`. -/
theorem c2_cleanIntegers_amended :
    cleanIntCell false "0001,500".data = .ok (some 1500) ∧
    cleanIntCell false "".data = .ok (some 0) ∧
    cleanIntCell true "".data = .ok none ∧
    cleanIntChars "00-350.2".data = "-350.2".data ∧
    cleanIntCell false "00-350.2".data = .error () ∧
    ∀ (nullable : Bool) (s : List Char),
      cleanIntCell nullable s = .error () ↔
        (cleanIntChars s ≠ [] ∧ isIntLiteral (cleanIntChars s) = false) := by
  exact ⟨rfl, rfl, rfl, rfl, rfl, cleanIntCell_error_iff⟩

/-- C6 counterexample: on input `"maybe"`, `CleanBooleans.transform` does not
pass the value through unchanged — the terminal `astype("boolean")` raises,
because the uppercased string `"MAYBE"` is not a bool-like value. -/
theorem c6_cleanBooleans_counterexample :
    cleanBoolCell "maybe".data = .error () := rfl

/-- C6 (amended): after trimming whitespace and uppercasing, values in
TRUTHY map to true, values in FALSEY map to false, values in UNKNOWN map to
null; every other value makes the final `astype("boolean")` cast raise (the
value is uppercased, not passed through unchanged). -/
theorem c6_cleanBooleans_amended :
    (∀ s : List Char, pyUpper (pyStripWs s) ∈ TRUTHY →
      cleanBoolCell s = .ok (some true)) ∧
    (∀ s : List Char, pyUpper (pyStripWs s) ∈ FALSEY →
      cleanBoolCell s = .ok (some false)) ∧
    (∀ s : List Char, pyUpper (pyStripWs s) ∈ UNKNOWN →
      cleanBoolCell s = .ok none) ∧
    (∀ s : List Char, pyUpper (pyStripWs s) ∉ TRUTHY ++ FALSEY ++ UNKNOWN →
      cleanBoolCell s = .error ()) ∧
    cleanBoolCell "Y".data = .ok (some true) ∧
    cleanBoolCell "yes".data = .ok (some true) ∧
    cleanBoolCell "YES".data = .ok (some true) ∧
    cleanBoolCell "T".data = .ok (some true) ∧
    cleanBoolCell "True".data = .ok (some true) ∧
    cleanBoolCell "N".data = .ok (some false) ∧
    cleanBoolCell "no".data = .ok (some false) ∧
    cleanBoolCell "NO".data = .ok (some false) ∧
    cleanBoolCell "F".data = .ok (some false) ∧
    cleanBoolCell "False".data = .ok (some false) ∧
    cleanBoolCell "".data = .ok none ∧
    cleanBoolCell "null".data = .ok none ∧
    cleanBoolCell "NONE".data = .ok none ∧
    cleanBoolCell "u".data = .ok none ∧
    cleanBoolCell "(blank)".data = .ok none := by
  have hF : ∀ t ∈ FALSEY, t ∉ TRUTHY := by decide
  have hU : ∀ t ∈ UNKNOWN, t ∉ TRUTHY ∧ t ∉ FALSEY := by decide
  refine ⟨?_, ?_, ?_, ?_, rfl, rfl, rfl, rfl, rfl, rfl, rfl, rfl, rfl, rfl,
    rfl, rfl, rfl, rfl, rfl⟩
  · intro s h
    simp [cleanBoolCell, bReplace, h, astypeBoolean]
  · intro s h
    simp [cleanBoolCell, bReplace, h, hF _ h, astypeBoolean]
  · intro s h
    simp [cleanBoolCell, bReplace, h, (hU _ h).1, (hU _ h).2, astypeBoolean]
  · intro s h
    simp only [List.mem_append, not_or] at h
    obtain ⟨⟨ht, hf⟩, hu⟩ := h
    simp [cleanBoolCell, bReplace, ht, hf, hu, astypeBoolean]

/-- C6 witness: the amended mapping applied at concrete members of each
vocabulary class. -/
theorem c6_cleanBooleans_witness :
    (pyUpper (pyStripWs " yes ".data) ∈ TRUTHY ∧
      cleanBoolCell " yes ".data = .ok (some true)) ∧
    (pyUpper (pyStripWs " f ".data) ∈ FALSEY ∧
      cleanBoolCell " f ".data = .ok (some false)) ∧
    (pyUpper (pyStripWs " n/a ".data) ∈ UNKNOWN ∧
      cleanBoolCell " n/a ".data = .ok none) ∧
    (pyUpper (pyStripWs "maybe".data) ∉ TRUTHY ++ FALSEY ++ UNKNOWN ∧
      cleanBoolCell "maybe".data = .error ()) := by
  refine ⟨⟨by decide, c6_cleanBooleans_amended.1 _ (by decide)⟩,
    ⟨by decide, c6_cleanBooleans_amended.2.1 _ (by decide)⟩,
    ⟨by decide, c6_cleanBooleans_amended.2.2.1 _ (by decide)⟩,
    ⟨by decide, c6_cleanBooleans_amended.2.2.2.1 _ (by decide)⟩⟩

/-! ## Claim theorems: field factory and schema construction -/

/-- C4: `SchemaField` selects the variant by normalizing `dtype` (strip
digits and whitespace from both ends, lowercase) and looking it up in the
fixed dispatch table `SchemaFieldTypes`: `dtype="int32"` and `dtype="INT "`
both resolve to the Int variant, and any declaration whose normalized token
is missing from the table fails with a `KeyError` on that token (the failure
the spec names `UnknownDtype`). -/
theorem c4_makeField_dispatch :
    SchemaFieldTypes.lookup (normalizeDtype "int32") = some .IntSchemaField ∧
    SchemaFieldTypes.lookup (normalizeDtype "INT ") = some .IntSchemaField ∧
    Except.map FieldSpec.data
      (SchemaField
        { index := 0, name := "a", title := "A", dtype := "int32",
          nullableKey := some false }) = .ok .int ∧
    Except.map FieldSpec.data
      (SchemaField
        { index := 1, name := "b", title := "B", dtype := "INT ",
          nullableKey := some true }) = .ok .int ∧
    ∀ d : RawDecl, SchemaFieldTypes.lookup (factoryKey d) = none →
      SchemaField d = .error (.keyError (factoryKey d)) := by
  refine ⟨rfl, rfl, rfl, rfl, ?_⟩
  intro d h
  unfold SchemaField
  rw [h]

/-- C4 witness: a concrete unknown token `"xyz"` misses the table and the
factory fails with `KeyError("xyz")`. -/
theorem c4_makeField_dispatch_witness :
    SchemaFieldTypes.lookup
        (factoryKey
          { index := 0, name := "a", title := "A", dtype := "xyz",
            nullableKey := some false }) = none ∧
    SchemaField
        { index := 0, name := "a", title := "A", dtype := "xyz",
          nullableKey := some false } = .error (.keyError "xyz") := by
  exact ⟨rfl, c4_makeField_dispatch.2.2.2.2 _ rfl⟩

/-- C7: the dispatch table maps the token `"currency"` to
`DecimalSchemaField`, so the factory builds the Decimal variant (carrying
only `scale`/`precision`) for `dtype="currency"`; the `CurrencySchemaField`
variant — the one that carries a `currency` code and a `locale`, defaulting
to `USD` / `en_US` — is never produced by the factory. -/
theorem c7_currency_resolves_to_decimal :
    SchemaFieldTypes.lookup "currency" = some .DecimalSchemaField ∧
    Except.map FieldSpec.data
      (SchemaField
        { index := 0, name := "money", title := "Money", dtype := "currency",
          nullableKey := some false }) =
      .ok (.decimal MAX_DECIMAL_SCALE MAX_DECIMAL_PRECISION) ∧
    defaultVariantData .CurrencySchemaField = .currency "USD" "en_US" ∧
    ∀ sc pr cu lo, VariantData.decimal sc pr ≠ VariantData.currency cu lo := by
  exact ⟨rfl, rfl, rfl, fun _ _ _ _ h => VariantData.noConfusion h⟩

/-- C9: a field declaration that omits the `nullable` key raises
`KeyError("nullable")` inside the `mode="before"` validator
`pandas_upper_type_is_nullable` (which subscripts the raw mapping before
pydantic defaults apply), so construction fails; the same declaration with
`nullable=False` present succeeds with the documented flag defaults. -/
theorem c9_omitted_nullable_raises :
    SchemaField { index := 0, name := "a", title := "A", dtype := "int" } =
      .error (.keyError "nullable") ∧
    SchemaField
        { index := 0, name := "a", title := "A", dtype := "int",
          nullableKey := some false } =
      .ok
        { index := 0, name := "a", title := "A", aliases := [],
          dtype := "int", required := false, nullable := false,
          protect := false, exclude := false, data := .int } := by
  exact ⟨rfl, rfl⟩

/-- C3 counterexample: a declaration with two fields sharing `index = 0`
builds successfully — `coerce_fields` performs no uniqueness check and
raises no `ConfigError`; the built schema keeps both fields with the
duplicate index. -/
theorem c3_duplicate_index_accepted :
    Except.map (List.map FieldSpec.index)
      (coerceFields
        [{ index := 0, name := "a", title := "A", dtype := "int",
           nullableKey := some false },
         { index := 0, name := "b", title := "B", dtype := "string",
           nullableKey := some false }]) = .ok [0, 0] := rfl

/-- C3 (amended): for every schema declaration that builds, the built field
list is the stable ascending sort by `index` of the per-field factory
results — sorted with `≤` on indices and a permutation of the constructed
fields; duplicate indices are accepted, not rejected. -/
theorem c3_fields_sorted_by_index :
    ∀ (decls : List RawDecl) (fs : List FieldSpec),
      coerceFields decls = .ok fs →
        fs.Sorted byIndex ∧
          ∃ gs, decls.mapM SchemaField = .ok gs ∧ fs.Perm gs := by
  intro decls fs h
  unfold coerceFields at h
  cases hm : decls.mapM SchemaField with
  | error e =>
      rw [hm] at h
      exact Except.noConfusion (h : Except.error e = Except.ok fs)
  | ok gs =>
      rw [hm] at h
      replace h : Except.ok (ε := PyErr) (gs.insertionSort byIndex) =
        Except.ok fs := h
      rw [Except.ok.injEq] at h
      subst h
      exact ⟨List.sorted_insertionSort byIndex gs, gs, rfl,
        List.perm_insertionSort byIndex gs⟩

/-- A concrete two-field declaration given in descending index order. -/
def exampleDecls : List RawDecl :=
  [{ index := 5, name := "b", title := "B", dtype := "string",
     nullableKey := some false },
   { index := 2, name := "a", title := "A", dtype := "int",
     nullableKey := some false }]

/-- The fields `coerce_fields` builds from `exampleDecls`. -/
def exampleFields : List FieldSpec :=
  [{ index := 2, name := "a", title := "A", aliases := [],
     dtype := "int", required := false, nullable := false,
     protect := false, exclude := false, data := .int },
   { index := 5, name := "b", title := "B", aliases := [],
     dtype := "string", required := false, nullable := false,
     protect := false, exclude := false,
     data := .string sysMaxsize false }]

/-- C3 witness: the sortedness conclusion at the concrete declaration
`exampleDecls`, whose fields arrive in descending index order. -/
theorem c3_fields_sorted_by_index_witness :
    coerceFields exampleDecls = .ok exampleFields ∧
      List.Sorted byIndex exampleFields := by
  exact ⟨rfl, (c3_fields_sorted_by_index exampleDecls exampleFields rfl).1⟩

/-! ## `monde.schema.builders.pydantic.rounded`

The record-model builder attaches `partial(rounded, scale=field.scale,
precision=field.precision)` as the after-validator of every Decimal field.
Python `round(x, ndigits)` rounds half to even; it is embedded here over the
rationals.
-/

/-- Round half to even of a rational to an integer (the rounding mode of
Python `round`). -/
def roundHalfEven (q : ℚ) : ℤ :=
  if q - ⌊q⌋ < 1/2 then ⌊q⌋
  else if q - ⌊q⌋ > 1/2 then ⌊q⌋ + 1
  else if Even ⌊q⌋ then ⌊q⌋ else ⌊q⌋ + 1

/-- Python `round(x, ndigits)` over the rationals. -/
def pyRound (x : ℚ) (ndigits : ℤ) : ℚ :=
  (roundHalfEven (x * (10 : ℚ) ^ ndigits) : ℚ) / (10 : ℚ) ^ ndigits

/-- Embedding of `rounded(x, precision, scale)` from the record-model builder: null is
returned unchanged, and otherwise the value is rounded to `scale` and
returned.  The body never consults `precision` — there is no rejection
branch (its docstring claims it validates that the result fits into
`precision` digits). -/
def rounded (x : Option ℚ) (precision : ℤ) (scale : ℤ) : Option ℚ :=
  match x with
  | none => none
  | some v => some (pyRound v scale)

/-- Fuelled base-10 digit counter (structurally recursive). -/
def digitCountAux : ℕ → ℕ → ℕ
  | 0, _ => 0
  | fuel + 1, n => if n = 0 then 0 else digitCountAux fuel (n / 10) + 1

/-- Number of base-10 digits of a natural number (0 has zero digits). -/
def digitCount (n : ℕ) : ℕ :=
  digitCountAux n n

/-- Number of decimal digits a rational occupies at a given scale, per the
SQL Server definition the docstring cites (123.45 at scale 2 occupies
precision 5). -/
def decimalDigitCount (q : ℚ) (scale : ℕ) : ℕ :=
  digitCount (⌊|q| * (10 : ℚ) ^ scale⌋).natAbs

/-- The value fits in `precision` total digits at the given scale. -/
def fitsPrecision (q : ℚ) (precision : ℕ) (scale : ℕ) : Prop :=
  decimalDigitCount q scale ≤ precision

/-- C5: `rounded` never rejects a value — for every non-null input it
returns `round(x, scale)` unconditionally, ignoring `precision`; in
particular the out-of-bounds value 123.45 under `precision=3`, `scale=2`
(5 digits, exceeding the declared 3) is returned, not rejected, so the
record model built from the schema accepts it. -/
theorem c5_rounded_ignores_precision :
    (∀ (x : ℚ) (precision scale : ℤ),
      rounded (some x) precision scale = some (pyRound x scale)) ∧
    rounded (some (2469/20)) 3 2 = some (2469/20) ∧
    decimalDigitCount (2469/20) 2 = 5 ∧
    ¬ fitsPrecision (2469/20) 3 2 := by
  refine ⟨fun x p s => rfl, ?_, ?_, ?_⟩
  · show some (pyRound (2469/20) 2) = some (2469/20)
    norm_num [pyRound, roundHalfEven]
  · show digitCount (⌊|(2469/20 : ℚ)| * (10 : ℚ) ^ (2 : ℕ)⌋).natAbs = 5
    have h12345 : ⌊|(2469/20 : ℚ)| * (10 : ℚ) ^ (2 : ℕ)⌋ = 12345 := by
      rw [show (|(2469/20 : ℚ)| * (10 : ℚ) ^ (2 : ℕ)) = 12345 by
        rw [abs_of_nonneg (by norm_num : (0:ℚ) ≤ 2469/20)]; norm_num]
      norm_num
    rw [h12345]
    decide
  · show ¬ decimalDigitCount (2469/20) 2 ≤ 3
    unfold decimalDigitCount
    have h12345 : ⌊|(2469/20 : ℚ)| * (10 : ℚ) ^ (2 : ℕ)⌋ = 12345 := by
      rw [show (|(2469/20 : ℚ)| * (10 : ℚ) ^ (2 : ℕ)) = 12345 by
        rw [abs_of_nonneg (by norm_num : (0:ℚ) ≤ 2469/20)]; norm_num]
      norm_num
    rw [h12345]
    decide

/-! ## Table-level cleaning stages and their in-place execution

`monde.transform.simple`: each cleaning stage's `transform(X)` body iterates
the schema-selected columns, assigns `X[column] = <cleaned column>` (writing
into the very DataFrame object it received), and ends with `return X`.

Every one of the four transform methods is decorated with `@utils.timed`
(`simple.py` lines 33, 49, 60 and 83).  The wrapper (`monde/utils.py`) runs
`result = f(*args, **kwargs)` and then builds its log record with
`datetime.fromtimestamp(start)` — but `utils.py` does `import datetime`, so
this is an attribute lookup on the `datetime` module, which has no
`fromtimestamp`.  The wrapper therefore raises `AttributeError` on every
call, after the body has completed and before `return result`: the table
object has been mutated in place, but `transform` never returns it.

The DataFrame object model: a heap maps references to tables; a pandas-style
statement `X[column] = ...` updates the table the reference denotes.  Column
selection (`self.meta.select_dtypes(...)`) is modelled as filtering the
schema by dtype class, and `X[column]` on a missing column raises
`KeyError`.
-/

/-- pandas column dtypes relevant to the cleaning stages. -/
inductive PDtype where
  | object
  | boolean
  | integer (nullable : Bool)
  | floating (nullable : Bool)
  | stringDt
deriving DecidableEq, Repr

/-- A cell of a DataFrame column. -/
inductive PCell where
  | s (v : List Char)
  | b (v : Option Bool)
  | i (v : Option Int)
  | f (v : Option ℚ)
deriving DecidableEq, Repr

/-- A DataFrame column: label, dtype, cells. -/
structure PCol where
  name : String
  dtype : PDtype
  cells : List PCell
deriving DecidableEq, Repr

/-- A DataFrame: a list of labelled columns. -/
def PTable := List PCol

instance : DecidableEq PTable := fun a b => List.hasDecEq a b

/-- One column of the driving schema: canonical name, dtype class and
nullability (what `schema.columns[column].nullable` returns). -/
structure SchemaCol where
  name : String
  dclass : String
  nullable : Bool
deriving DecidableEq, Repr

/-- Embedding of `self.meta.select_dtypes(include=classes)`: the schema columns whose
dtype class is one of the requested classes. -/
def selectDtypes (schema : List SchemaCol) (classes : List String) :
    List SchemaCol :=
  schema.filter (fun sc => sc.dclass ∈ classes)

/-- Embedding of `X[column]` read: `KeyError` when the column is absent. -/
def getCol (X : PTable) (name : String) : Except Unit PCol :=
  match X.find? (fun c => c.name = name) with
  | some c => .ok c
  | none => .error ()

/-- Embedding of `X[column] = new`: replace the column in place. -/
def setCol (X : PTable) (name : String) (new : PCol) : PTable :=
  X.map (fun c => if c.name = name then new else c)

/-- Embedding of `pd.api.types.is_string_dtype` (object and string dtypes qualify). -/
def isStringDtype : PDtype → Bool
  | .object => true
  | .stringDt => true
  | _ => false

/-- Embedding of `CleanBooleans.transform` at table level: for every schema column of
class `boolean` whose data column is object-typed, run the boolean cell
pipeline and store the result back (`astype("boolean")` retags the column). -/
def cleanBooleansTable (schema : List SchemaCol) (X0 : PTable) :
    Except Unit PTable :=
  (selectDtypes schema ["boolean"]).foldlM
    (fun X sc => do
      let col ← getCol X sc.name
      if col.dtype = .object then do
        let cells ← col.cells.mapM (fun c =>
          match c with
          | .s v => Except.map PCell.b (cleanBoolCell v)
          | _ => .error ())
        pure (setCol X sc.name { col with dtype := .boolean, cells := cells })
      else
        pure X)
    X0

/-- Embedding of `CleanStrings.transform` at table level: for every column of the input,
strip whitespace on string cells; non-string cells are untouched.  This
stage never raises. -/
def cleanStringsTable (X : PTable) : Except Unit PTable :=
  .ok (X.map (fun col =>
    { col with
      cells := col.cells.map (fun c =>
        match c with
        | .s v => .s (pyStripWs v)
        | other => other) }))

/-- Embedding of `CleanIntegers.transform` at table level: for every schema column of
class `int`/`uint` whose data column is string-typed, run the integer cell
pipeline with the field's nullability and store the result back. -/
def cleanIntegersTable (schema : List SchemaCol) (X0 : PTable) :
    Except Unit PTable :=
  (selectDtypes schema ["int", "uint"]).foldlM
    (fun X sc => do
      let col ← getCol X sc.name
      if isStringDtype col.dtype then do
        let cells ← col.cells.mapM (fun c =>
          match c with
          | .s v => Except.map PCell.i (cleanIntCell sc.nullable v)
          | _ => .error ())
        pure (setCol X sc.name
          { col with dtype := .integer sc.nullable, cells := cells })
      else
        pure X)
    X0

/-- Embedding of `float(s)` / `astype("float64")` on a cleaned string: optional sign,
digits with at most one decimal point, at least one digit (scientific
notation is not modelled; the cleaned vocabulary cannot produce it). -/
def pyParseFloat (s : List Char) : Option ℚ :=
  let t := pyStripWs s
  let signAndRest : Bool × List Char :=
    match t with
    | '-' :: r => (true, r)
    | '+' :: r => (false, r)
    | r => (false, r)
  match signAndRest.2.splitOn '.' with
  | [a] =>
      if a ≠ [] ∧ a.all isPyDigit then
        some ((if signAndRest.1 then -1 else 1) * (digitsToNat a : ℚ))
      else none
  | [a, b] =>
      if (a ≠ [] ∨ b ≠ []) ∧ a.all isPyDigit ∧ b.all isPyDigit then
        some ((if signAndRest.1 then -1 else 1) *
          ((digitsToNat a : ℚ) + (digitsToNat b : ℚ) / (10 : ℚ) ^ b.length))
      else none
  | _ => none

/-- Cell-level embedding of `CleanFloats.transform`: the string-cleaning
chain is identical to `CleanIntegers` (same source lines), but the final
cast is to a float dtype. -/
def cleanFloatCell (nullable : Bool) (s : List Char) : Except Unit (Option ℚ) :=
  let c := cleanIntChars s
  if c = [] then
    .ok (if nullable then none else some 0)
  else
    match pyParseFloat c with
    | some q => .ok (some q)
    | none => .error ()

/-- Embedding of `CleanFloats.transform` at table level. -/
def cleanFloatsTable (schema : List SchemaCol) (X0 : PTable) :
    Except Unit PTable :=
  (selectDtypes schema ["float"]).foldlM
    (fun X sc => do
      let col ← getCol X sc.name
      if isStringDtype col.dtype then do
        let cells ← col.cells.mapM (fun c =>
          match c with
          | .s v => Except.map PCell.f (cleanFloatCell sc.nullable v)
          | _ => .error ())
        pure (setCol X sc.name
          { col with dtype := .floating sc.nullable, cells := cells })
      else
        pure X)
    X0

instance : DecidableEq (Except Unit PTable) := fun a b =>
  match a, b with
  | .ok x, .ok y =>
      if h : x = y then isTrue (by rw [h]) else isFalse (by simp [h])
  | .error x, .error y => isTrue (by cases x; cases y; rfl)
  | .ok _, .error _ => isFalse (by simp)
  | .error _, .ok _ => isFalse (by simp)

/-- The heap of DataFrame objects: a reference denotes a table. -/
def Heap := Nat → PTable

/-- How a call to a `@utils.timed`-decorated transform ends: an exception
raised inside the body itself, or the `AttributeError` the wrapper raises
from `datetime.fromtimestamp` after the body has completed. -/
inductive TimedOutcome where
  | bodyError
  | attributeError
deriving DecidableEq, Repr

/-- Execution of a `@utils.timed`-decorated cleaning stage on the object a
reference denotes.  When the body completes, its cleaned columns have been
written into that object (the heap is updated at the reference) — but the
wrapper then evaluates `datetime.fromtimestamp(start)` on the `datetime`
module and raises `AttributeError`, so the call never reaches
`return result`: the successful branch of the return type is never
produced.  (When the body itself raises, the heap is left as it was; the
body's partial column writes are not modelled, as no claim concerns them.) -/
def timedTransform (clean : PTable → Except Unit PTable) (ref : Nat)
    (h : Heap) : Except (TimedOutcome × Heap) (Nat × Heap) :=
  match clean (h ref) with
  | .error _ => .error (.bodyError, h)
  | .ok T => .error (.attributeError, fun r => if r = ref then T else h r)

/-- Embedding of `CleanBooleans.transform` with its `@utils.timed` wrapper. -/
def cleanBooleansStep (schema : List SchemaCol) : Nat → Heap →
    Except (TimedOutcome × Heap) (Nat × Heap) :=
  timedTransform (cleanBooleansTable schema)

/-- Embedding of `CleanStrings.transform` with its `@utils.timed` wrapper. -/
def cleanStringsStep : Nat → Heap → Except (TimedOutcome × Heap) (Nat × Heap) :=
  timedTransform cleanStringsTable

/-- Embedding of `CleanIntegers.transform` with its `@utils.timed` wrapper. -/
def cleanIntegersStep (schema : List SchemaCol) : Nat → Heap →
    Except (TimedOutcome × Heap) (Nat × Heap) :=
  timedTransform (cleanIntegersTable schema)

/-- Embedding of `CleanFloats.transform` with its `@utils.timed` wrapper. -/
def cleanFloatsStep (schema : List SchemaCol) : Nat → Heap →
    Except (TimedOutcome × Heap) (Nat × Heap) :=
  timedTransform (cleanFloatsTable schema)

/-- C10: each cleaning stage's body (booleans, strings, integers, floats)
does write the cleaned columns into the very table object it received — the
heap afterwards holds the cleaned table at the call's reference and is
untouched elsewhere — but the `@utils.timed` wrapper raises
`AttributeError` after every completed body, so `transform` never returns
that object (nor anything): the claimed `returns the very table object` is
false on the code. -/
theorem c10_cleaners_mutate_but_never_return :
    ∀ (schema : List SchemaCol) (ref : Nat) (h : Heap) (T : PTable),
      (cleanBooleansTable schema (h ref) = .ok T →
        cleanBooleansStep schema ref h =
          .error (.attributeError, fun r => if r = ref then T else h r)) ∧
      (∀ res, cleanBooleansStep schema ref h ≠ .ok res) ∧
      (cleanStringsTable (h ref) = .ok T →
        cleanStringsStep ref h =
          .error (.attributeError, fun r => if r = ref then T else h r)) ∧
      (∀ res, cleanStringsStep ref h ≠ .ok res) ∧
      (cleanIntegersTable schema (h ref) = .ok T →
        cleanIntegersStep schema ref h =
          .error (.attributeError, fun r => if r = ref then T else h r)) ∧
      (∀ res, cleanIntegersStep schema ref h ≠ .ok res) ∧
      (cleanFloatsTable schema (h ref) = .ok T →
        cleanFloatsStep schema ref h =
          .error (.attributeError, fun r => if r = ref then T else h r)) ∧
      (∀ res, cleanFloatsStep schema ref h ≠ .ok res) := by
  intro schema ref h T
  refine ⟨?_, ?_, ?_, ?_, ?_, ?_, ?_, ?_⟩
  · intro hcl
    simp only [cleanBooleansStep, timedTransform, hcl]
  · intro res
    simp only [cleanBooleansStep, timedTransform]
    cases cleanBooleansTable schema (h ref) <;> simp
  · intro hcl
    simp only [cleanStringsStep, timedTransform, hcl]
  · intro res
    simp only [cleanStringsStep, timedTransform]
    cases cleanStringsTable (h ref) <;> simp
  · intro hcl
    simp only [cleanIntegersStep, timedTransform, hcl]
  · intro res
    simp only [cleanIntegersStep, timedTransform]
    cases cleanIntegersTable schema (h ref) <;> simp
  · intro hcl
    simp only [cleanFloatsStep, timedTransform, hcl]
  · intro res
    simp only [cleanFloatsStep, timedTransform]
    cases cleanFloatsTable schema (h ref) <;> simp

/-- A concrete driving schema for the in-place witness. -/
def exSchema : List SchemaCol :=
  [⟨"flag", "boolean", false⟩, ⟨"n", "int", false⟩, ⟨"x", "float", true⟩]

/-- A concrete raw table for the in-place witness. -/
def exTable : PTable :=
  [⟨"flag", .object, [.s "Y".data, .s " no ".data]⟩,
   ⟨"n", .object, [.s "0001,500".data, .s "12".data]⟩,
   ⟨"x", .object, [.s "  ".data, .s "".data]⟩,
   ⟨"junk", .stringDt, [.s " pad ".data, .s "q".data]⟩]

/-- A concrete heap holding `exTable` at every reference. -/
def exHeap : Heap := fun _ => exTable

/-- Table `exTable` after `CleanBooleans`. -/
def exTableB : PTable :=
  [⟨"flag", .boolean, [.b (some true), .b (some false)]⟩,
   ⟨"n", .object, [.s "0001,500".data, .s "12".data]⟩,
   ⟨"x", .object, [.s "  ".data, .s "".data]⟩,
   ⟨"junk", .stringDt, [.s " pad ".data, .s "q".data]⟩]

/-- Table `exTable` after `CleanStrings`. -/
def exTableS : PTable :=
  [⟨"flag", .object, [.s "Y".data, .s "no".data]⟩,
   ⟨"n", .object, [.s "0001,500".data, .s "12".data]⟩,
   ⟨"x", .object, [.s "".data, .s "".data]⟩,
   ⟨"junk", .stringDt, [.s "pad".data, .s "q".data]⟩]

/-- Table `exTable` after `CleanIntegers`. -/
def exTableI : PTable :=
  [⟨"flag", .object, [.s "Y".data, .s " no ".data]⟩,
   ⟨"n", .integer false, [.i (some 1500), .i (some 12)]⟩,
   ⟨"x", .object, [.s "  ".data, .s "".data]⟩,
   ⟨"junk", .stringDt, [.s " pad ".data, .s "q".data]⟩]

/-- Table `exTable` after `CleanFloats`. -/
def exTableF : PTable :=
  [⟨"flag", .object, [.s "Y".data, .s " no ".data]⟩,
   ⟨"n", .object, [.s "0001,500".data, .s "12".data]⟩,
   ⟨"x", .floating true, [.f none, .f none]⟩,
   ⟨"junk", .stringDt, [.s " pad ".data, .s "q".data]⟩]

/-- C10 witness: at reference 0 of the concrete heap, each stage's body
completes and its cleaned table lands in the heap at reference 0, yet the
call itself ends in the wrapper's `AttributeError` — never in a returned
table. -/
theorem c10_cleaners_mutate_but_never_return_witness :
    (cleanBooleansTable exSchema (exHeap 0) = .ok exTableB ∧
      cleanBooleansStep exSchema 0 exHeap =
        .error (.attributeError, fun r => if r = 0 then exTableB else exHeap r)) ∧
    (cleanStringsTable (exHeap 0) = .ok exTableS ∧
      cleanStringsStep 0 exHeap =
        .error (.attributeError, fun r => if r = 0 then exTableS else exHeap r)) ∧
    (cleanIntegersTable exSchema (exHeap 0) = .ok exTableI ∧
      cleanIntegersStep exSchema 0 exHeap =
        .error (.attributeError, fun r => if r = 0 then exTableI else exHeap r)) ∧
    (cleanFloatsTable exSchema (exHeap 0) = .ok exTableF ∧
      cleanFloatsStep exSchema 0 exHeap =
        .error (.attributeError, fun r => if r = 0 then exTableF else exHeap r)) := by
  refine ⟨⟨rfl, ?_⟩, ⟨rfl, ?_⟩, ⟨rfl, ?_⟩, ⟨rfl, ?_⟩⟩
  · exact (c10_cleaners_mutate_but_never_return exSchema 0 exHeap exTableB).1
      rfl
  · exact
      (c10_cleaners_mutate_but_never_return exSchema 0 exHeap exTableS).2.2.1
      rfl
  · exact
      (c10_cleaners_mutate_but_never_return
        exSchema 0 exHeap exTableI).2.2.2.2.1 rfl
  · exact
      (c10_cleaners_mutate_but_never_return
        exSchema 0 exHeap exTableF).2.2.2.2.2.2.1 rfl

/-! ## `monde.transform.validator.Validator`

`Validator.fit_transform(X)` runs `self.schema.validate(X, lazy=True)`
catching `SchemaErrors` (caching the failure cases and handing them to the
error handler), then returns

```
X.drop(index=self.index_errors["index"])          # rows with column errors
 .drop(columns=self.extra_column_errors["failure_case"])  # extra columns
 .pipe(self.schema.validate, **fit_params)        # second pass
```

`pa.DataFrameSchema.validate` is external (pandera).  Modelled from the
spec: the lazy validation pass collects every schema-level error (a
schema-declared column missing from the data, a data column absent from the
schema) and every column-level failure keyed by row index; the validation
pass returns the frame with every schema-declared column the data lacks
(re)inserted with its declared default/null.  Each schema column carries a
cell check (the column's dtype coercion/checks) and a declared default;
schema column names are unique (pandera keeps columns in a dict).
-/

/-- A column of the pandera schema: name, declared default (null when
absent), and the cell-level check. -/
structure VField (α : Type) where
  name : String
  default : Option α
  check : Option α → Bool

/-- The pandera schema: its columns. -/
abbrev VSchema (α : Type) := List (VField α)

/-- A DataFrame for validation purposes: column labels and labelled rows,
each row's cells aligned with the labels. -/
structure VTable (α : Type) where
  cols : List String
  rows : List (Nat × List (Option α))

/-- The failure cases of a lazy validation pass. -/
inductive VErr where
  | missingCol (name : String)
  | extraCol (name : String)
  | cellErr (col : String) (index : Nat)
deriving DecidableEq, Repr

/-- Names of the schema columns. -/
def colNames {α : Type} (s : VSchema α) : List String :=
  s.map (·.name)

/-- Cell of a row under a column label (null when the label is absent). -/
def cellAt {α : Type} (cols : List String) (row : List (Option α))
    (name : String) : Option α :=
  match (cols.zip row).find? (fun p => p.1 = name) with
  | some p => p.2
  | none => none

/-- Column-level failures: for every schema column present in the data,
every row whose cell fails the column's check, keyed by the row label. -/
def columnErrors {α : Type} (s : VSchema α) (t : VTable α) : List VErr :=
  s.flatMap (fun f =>
    if f.name ∈ t.cols then
      t.rows.filterMap (fun r =>
        if f.check (cellAt t.cols r.2 f.name) then none
        else some (.cellErr f.name r.1))
    else [])

/-- Modelled from the spec: the failure cases `schema.validate(X, lazy=True)`
collects — missing schema columns, extra data columns, and column-level
failures keyed by row index. -/
def paValidateErrors {α : Type} (s : VSchema α) (t : VTable α) : List VErr :=
  ((colNames s).filter (fun c => c ∉ t.cols)).map .missingCol
    ++ (t.cols.filter (fun c => c ∉ colNames s)).map .extraCol
    ++ columnErrors s t

/-- Modelled from the spec: the frame `schema.validate` returns — every
schema-declared column the data lacks is (re)inserted with its declared
default/null. -/
def paValidateResult {α : Type} (s : VSchema α) (t : VTable α) : VTable α :=
  let missing := s.filter (fun f => f.name ∉ t.cols)
  { cols := t.cols ++ missing.map (·.name)
    rows := t.rows.map (fun r => (r.1, r.2 ++ missing.map (·.default))) }

/-- Embedding of `self.index_errors["index"]`: the row labels of the column-level
failure cases. -/
def indexErrors (errs : List VErr) : List Nat :=
  errs.filterMap (fun e =>
    match e with
    | .cellErr _ i => some i
    | _ => none)

/-- Embedding of `self.extra_column_errors["failure_case"]`: the names of the extra
columns (the property names say which failure-case class each selects;
pandera's check-name strings are external). -/
def extraColumnCases (errs : List VErr) : List String :=
  errs.filterMap (fun e =>
    match e with
    | .extraCol n => some n
    | _ => none)

/-- Embedding of `X.drop(index=bad)`. -/
def dropRows {α : Type} (t : VTable α) (bad : List Nat) : VTable α :=
  { t with rows := t.rows.filter (fun r => r.1 ∉ bad) }

/-- Embedding of `X.drop(columns=names)` (cells of dropped columns removed from each
row). -/
def dropCols {α : Type} (t : VTable α) (names : List String) : VTable α :=
  { cols := t.cols.filter (fun c => c ∉ names)
    rows := t.rows.map (fun r =>
      (r.1, ((t.cols.zip r.2).filter (fun p => p.1 ∉ names)).map (·.2))) }

/-- Embedding of `Validator.fit_transform`: first validation pass (errors cached and
reported), drop the rows carrying column-level failures, drop the extra
columns, and pipe through the second validation pass.  Returns the
resulting table and the cached error report. -/
def validatorFitTransform {α : Type} (s : VSchema α) (t : VTable α) :
    VTable α × List VErr :=
  let errs := paValidateErrors s t
  let t1 := dropRows t (indexErrors errs)
  let t2 := dropCols t1 (extraColumnCases errs)
  (paValidateResult s t2, errs)

/-! ### Supporting lemmas for the Validator -/

/-- Every column-level failure case is a `cellErr`. -/
theorem columnErrors_shape {α : Type} (s : VSchema α) (t : VTable α) :
    ∀ e ∈ columnErrors s t, ∃ c i, e = VErr.cellErr c i := by
  intro e he
  simp only [columnErrors, List.mem_flatMap] at he
  obtain ⟨f, _, he⟩ := he
  by_cases h : f.name ∈ t.cols
  · simp only [h, if_true, List.mem_filterMap] at he
    obtain ⟨r, _, he⟩ := he
    by_cases hc : f.check (cellAt t.cols r.2 f.name)
    · simp [hc] at he
    · simp only [hc, Bool.false_eq_true, if_false, Option.some.injEq] at he
      exact ⟨f.name, r.1, he.symm⟩
  · simp [h] at he

/-- The extra-column failure cases of a validation pass are exactly the
data columns the schema lacks. -/
theorem extraColumnCases_paValidateErrors {α : Type} (s : VSchema α)
    (t : VTable α) :
    extraColumnCases (paValidateErrors s t) =
      t.cols.filter (fun c => c ∉ colNames s) := by
  unfold extraColumnCases paValidateErrors
  rw [List.filterMap_append, List.filterMap_append]
  have h1 : (((colNames s).filter (fun c => c ∉ t.cols)).map
      VErr.missingCol).filterMap (fun e =>
        match e with
        | .extraCol n => some n
        | _ => none) = [] := by
    rw [List.filterMap_eq_nil_iff]
    intro e he
    simp only [List.mem_map] at he
    obtain ⟨c, _, rfl⟩ := he
    rfl
  have h2 : ((t.cols.filter (fun c => c ∉ colNames s)).map
      VErr.extraCol).filterMap (fun e =>
        match e with
        | .extraCol n => some n
        | _ => none) = t.cols.filter (fun c => c ∉ colNames s) := by
    rw [List.filterMap_map]
    exact List.filterMap_some _
  have h3 : (columnErrors s t).filterMap (fun e =>
      match e with
      | .extraCol n => some n
      | _ => none) = [] := by
    rw [List.filterMap_eq_nil_iff]
    intro e he
    obtain ⟨c, i, rfl⟩ := columnErrors_shape s t e he
    rfl
  rw [h1, h2, h3, List.nil_append, List.append_nil]

/-- Labels surviving `dropRows` avoid the dropped set. -/
theorem dropRows_labels {α : Type} (t : VTable α) (bad : List Nat) :
    ∀ r ∈ (dropRows t bad).rows, r.1 ∉ bad := by
  intro r hr
  simp only [dropRows, List.mem_filter, decide_eq_true_eq] at hr
  exact hr.2

/-- Length of a zip filtered on the label component. -/
theorem zip_filter_length {α : Type} :
    ∀ (cols : List String) (cells : List (Option α)) (pred : String → Bool),
      cols.length = cells.length →
      (((cols.zip cells).filter (fun p => pred p.1)).map (·.2)).length =
        (cols.filter pred).length := by
  intro cols
  induction cols with
  | nil => intro cells pred _; simp
  | cons c cs ih =>
      intro cells pred hlen
      cases cells with
      | nil => simp at hlen
      | cons x xs =>
          simp only [List.length_cons, Nat.succ.injEq] at hlen
          by_cases hp : pred c <;>
            simp [List.zip_cons_cons, List.filter_cons, hp, ih xs pred hlen]

/-- Lookup `cellAt` skips an aligned block that does not hold the label. -/
theorem cellAt_append {α : Type} (cols1 : List String)
    (cells1 : List (Option α)) (cols2 : List String)
    (cells2 : List (Option α)) (name : String)
    (hlen : cols1.length = cells1.length) (hnot : name ∉ cols1) :
    cellAt (cols1 ++ cols2) (cells1 ++ cells2) name =
      cellAt cols2 cells2 name := by
  unfold cellAt
  rw [List.zip_append hlen, List.find?_append]
  have hnone : (cols1.zip cells1).find? (fun p => p.1 = name) = none := by
    rw [List.find?_eq_none]
    intro p hp
    have hmem := List.of_mem_zip hp
    simp only [decide_eq_true_eq]
    intro heq
    exact hnot (heq ▸ hmem.1)
  rw [hnone, Option.none_or]

/-- Lookup `cellAt` over the name/default projections of a field list recovers the
field's declared default when field names are unique. -/
theorem cellAt_map_default {α : Type} :
    ∀ (M : List (VField α)) (f : VField α), f ∈ M →
      (M.map (·.name)).Nodup →
      cellAt (M.map (·.name)) (M.map (·.default)) f.name = f.default := by
  intro M
  induction M with
  | nil => intro f hf _; simp at hf
  | cons g M ih =>
      intro f hf hnodup
      simp only [List.map_cons, List.nodup_cons] at hnodup
      unfold cellAt
      rw [List.zip_map', List.find?_map]
      by_cases hg : g.name = f.name
      · have hfg : f = g := by
          rcases List.mem_cons.1 hf with h | h
          · exact h
          · exact absurd (hg ▸ List.mem_map_of_mem (·.name) h) hnodup.1
        subst hfg
        simp [List.find?_cons, hg]
      · have hf2 : f ∈ M := by
          rcases List.mem_cons.1 hf with h | h
          · exact absurd (h ▸ rfl) (Ne.symm hg)
          · exact h
        have := ih f hf2 hnodup.2
        unfold cellAt at this
        rw [List.zip_map', List.find?_map] at this
        simpa [List.find?_cons, hg] using this

/-- A missing schema column is reported by the lazy validation pass. -/
theorem validator_reports_missing {α : Type} (s : VSchema α) (t : VTable α) :
    ∀ f ∈ s, f.name ∉ t.cols →
      VErr.missingCol f.name ∈ paValidateErrors s t := by
  intro f hf hn
  unfold paValidateErrors
  simp only [List.mem_append, List.mem_map, List.mem_filter,
    decide_eq_true_eq]
  exact Or.inl (Or.inl ⟨f.name, ⟨List.mem_map_of_mem _ hf, hn⟩, rfl⟩)

/-- The healed output's column set is exactly the schema's. -/
theorem validator_result_cols {α : Type} (s : VSchema α) (t : VTable α)
    (bad : List Nat) :
    ∀ c, c ∈ (paValidateResult s (dropCols (dropRows t bad)
        (extraColumnCases (paValidateErrors s t)))).cols ↔
      c ∈ colNames s := by
  intro c
  show c ∈ (t.cols.filter (fun x =>
      x ∉ extraColumnCases (paValidateErrors s t)))
      ++ ((s.filter (fun f => f.name ∉ t.cols.filter (fun x =>
        x ∉ extraColumnCases (paValidateErrors s t)))).map (·.name)) ↔ _
  rw [extraColumnCases_paValidateErrors]
  constructor
  · intro hc
    rcases List.mem_append.1 hc with h | h
    · simp only [List.mem_filter, decide_eq_true_eq, List.mem_filter,
        not_and, not_not] at h
      exact h.2 h.1
    · simp only [List.mem_map, List.mem_filter] at h
      obtain ⟨f, hf, rfl⟩ := h
      exact List.mem_map_of_mem _ hf.1
  · intro hc
    by_cases h2 : c ∈ t.cols.filter (fun x =>
        x ∉ t.cols.filter (fun y => y ∉ colNames s))
    · exact List.mem_append_left _ h2
    · simp only [colNames, List.mem_map] at hc
      obtain ⟨f, hf, rfl⟩ := hc
      refine List.mem_append_right _ ?_
      refine List.mem_map_of_mem _ ?_
      simp only [List.mem_filter, decide_eq_true_eq]
      exact ⟨hf, by simpa using h2⟩

/-- Rows carrying a dropped label do not reappear in the healed output. -/
theorem validator_result_labels {α : Type} (s : VSchema α) (t : VTable α)
    (bad : List Nat) (names : List String) :
    ∀ r ∈ (paValidateResult s (dropCols (dropRows t bad) names)).rows,
      r.1 ∉ bad := by
  intro r hr
  simp only [paValidateResult, dropCols, dropRows, List.mem_map,
    List.mem_filter, decide_eq_true_eq] at hr
  obtain ⟨r2, ⟨r0, ⟨_, h0⟩, hr2⟩, hr⟩ := hr
  have : r.1 = r0.1 := by
    rw [← hr, ← hr2]
  rw [this]
  exact h0

/-- Schema columns absent from the data come back carrying their declared
default in every surviving row. -/
theorem validator_inserted_defaults {α : Type} (s : VSchema α) (t : VTable α)
    (bad : List Nat) (names : List String)
    (hwf : ∀ r ∈ t.rows, r.2.length = t.cols.length)
    (hnodup : (colNames s).Nodup) :
    ∀ f ∈ s, f.name ∉ t.cols →
      ∀ r ∈ (paValidateResult s (dropCols (dropRows t bad) names)).rows,
        cellAt (paValidateResult s (dropCols (dropRows t bad) names)).cols
          r.2 f.name = f.default := by
  intro f hf hn r hr
  have hcols2 : (dropCols (dropRows t bad) names).cols =
      t.cols.filter (fun c => c ∉ names) := rfl
  have hnotin2 : f.name ∉ (dropCols (dropRows t bad) names).cols := by
    rw [hcols2]
    intro hmem
    exact hn (List.mem_of_mem_filter hmem)
  -- the field is among the re-inserted ones
  have hfM : f ∈ s.filter
      (fun g => g.name ∉ (dropCols (dropRows t bad) names).cols) := by
    simp only [List.mem_filter, decide_eq_true_eq]
    exact ⟨hf, hnotin2⟩
  -- unpack the row of the healed result
  simp only [paValidateResult, List.mem_map] at hr
  obtain ⟨r2, hr2, hreq⟩ := hr
  -- the row of the column-dropped table is aligned with its labels
  simp only [dropCols, dropRows, List.mem_map, List.mem_filter] at hr2
  obtain ⟨r0, hr0, hr2eq⟩ := hr2
  have hlen0 : r0.2.length = t.cols.length :=
    hwf r0 hr0.1
  have hlen2 : r2.2.length = (dropCols (dropRows t bad) names).cols.length := by
    rw [← hr2eq, hcols2]
    exact zip_filter_length t.cols r0.2 (fun c => decide (c ∉ names)) hlen0.symm
  -- compute the cell
  rw [← hreq]
  show cellAt ((dropCols (dropRows t bad) names).cols ++ _)
      (r2.2 ++ _) f.name = f.default
  rw [cellAt_append _ _ _ _ _ hlen2.symm hnotin2]
  apply cellAt_map_default _ f hfM
  exact List.Nodup.sublist
    (List.Sublist.map _ (List.filter_sublist s)) hnodup

/-- C1: `Validator.fit_transform` on a table lacking a schema-declared
column reports the missing-column schema error; its output's column set
equals the schema's column set exactly; every row carrying a column-level
failure is dropped; and every schema column the data lacked is re-inserted
holding its declared default/null in every surviving row.  Hypotheses:
rows are aligned with the column labels, and schema column names are unique
(pandera keeps columns in a dict). -/
theorem c1_validator_missing_column_heal {α : Type} :
    ∀ (s : VSchema α) (t : VTable α),
      (∀ r ∈ t.rows, r.2.length = t.cols.length) →
      (colNames s).Nodup →
      (∀ f ∈ s, f.name ∉ t.cols →
        VErr.missingCol f.name ∈ (validatorFitTransform s t).2) ∧
      (∀ c, c ∈ (validatorFitTransform s t).1.cols ↔ c ∈ colNames s) ∧
      (∀ i ∈ indexErrors (validatorFitTransform s t).2,
        ∀ r ∈ (validatorFitTransform s t).1.rows, r.1 ≠ i) ∧
      (∀ f ∈ s, f.name ∉ t.cols →
        ∀ r ∈ (validatorFitTransform s t).1.rows,
          cellAt (validatorFitTransform s t).1.cols r.2 f.name = f.default) := by
  intro s t hwf hnodup
  refine ⟨validator_reports_missing s t, ?_, ?_, ?_⟩
  · exact validator_result_cols s t _
  · intro i hi r hr heq
    exact validator_result_labels s t _ _ r hr (heq ▸ hi)
  · exact validator_inserted_defaults s t _ _ hwf hnodup

/-- A concrete pandera-style schema: column `a` (default 7) and column `b`,
both requiring non-null cells. -/
def exVSchema : VSchema Int :=
  [⟨"a", some 7, fun c => c.isSome⟩, ⟨"b", none, fun c => c.isSome⟩]

/-- A concrete table missing schema column `a`, carrying extra column `z`,
and holding one row (label 1) with a null in column `b`. -/
def exVTable : VTable Int :=
  { cols := ["b", "z"], rows := [(0, [some 1, some 2]), (1, [none, some 3])] }

/-- C1 witness: the Validator contract at the concrete schema/table —
`a` is reported missing; the output columns are exactly `b` and `a`; the
failing row (label 1) is gone; the healed `a` column holds the default 7. -/
theorem c1_validator_missing_column_heal_witness :
    (∀ r ∈ exVTable.rows, r.2.length = exVTable.cols.length) ∧
    (colNames exVSchema).Nodup ∧
    (validatorFitTransform exVSchema exVTable).1.cols = ["b", "a"] ∧
    (validatorFitTransform exVSchema exVTable).1.rows =
      [(0, [some 1, some 7])] ∧
    (validatorFitTransform exVSchema exVTable).2 =
      [.missingCol "a", .extraCol "z", .cellErr "b" 1] ∧
    ((∀ f ∈ exVSchema, f.name ∉ exVTable.cols →
        VErr.missingCol f.name ∈ (validatorFitTransform exVSchema exVTable).2) ∧
      (∀ c, c ∈ (validatorFitTransform exVSchema exVTable).1.cols ↔
        c ∈ colNames exVSchema) ∧
      (∀ i ∈ indexErrors (validatorFitTransform exVSchema exVTable).2,
        ∀ r ∈ (validatorFitTransform exVSchema exVTable).1.rows, r.1 ≠ i) ∧
      (∀ f ∈ exVSchema, f.name ∉ exVTable.cols →
        ∀ r ∈ (validatorFitTransform exVSchema exVTable).1.rows,
          cellAt (validatorFitTransform exVSchema exVTable).1.cols r.2 f.name =
            f.default)) := by
  refine ⟨by decide, by decide, rfl, rfl, rfl, ?_⟩
  exact c1_validator_missing_column_heal exVSchema exVTable
    (by decide) (by decide)

/-! ## `monde.transform.subframe.SubframeExtractor`

`fit` builds the null mask (`X.notnull()`), labels its connected components
(`skimage.measure.label`), computes each component's bounding box
(`regionprops`), takes the configured region index or the one
`get_largest_region` picks (strict `>` over `area_bbox` starting from
`-inf`, so the first maximum wins), and stores the bounding box.
`transform` slices `X.iloc[x1:x2, y1:y2]` and, when a header is configured,
promotes the first row of the slice to labels and drops it.

`skimage.measure.label` / `regionprops` are external.  Modelled from the
spec: components of the non-null mask (4-connected adjacency), discovered
in row-major order, each with its axis-aligned bounding box; `area_bbox` is
the bounding-box area.
-/

/-- A 2-D grid of optionally-null cells (row-major). -/
abbrev Grid (α : Type) := List (List (Option α))

/-- Row-major coordinates of the non-null cells (the binary mask). -/
def maskCoords {α : Type} (g : Grid α) : List (Nat × Nat) :=
  g.enum.flatMap (fun p =>
    p.2.enum.filterMap (fun q =>
      if q.2.isSome then some (p.1, q.1) else none))

/-- 4-connected adjacency of two coordinates. -/
def adj4 (p q : Nat × Nat) : Bool :=
  (p.1 = q.1 && (p.2 = q.2 + 1 || q.2 = p.2 + 1)) ||
  (p.2 = q.2 && (p.1 = q.1 + 1 || q.1 = p.1 + 1))

/-- Fuelled flood fill: grow a component by mask cells adjacent to it. -/
def floodAux (cells : List (Nat × Nat)) :
    Nat → List (Nat × Nat) → List (Nat × Nat)
  | 0, comp => comp
  | fuel + 1, comp =>
      let growth := cells.filter (fun q => q ∉ comp && comp.any (adj4 · q))
      if growth = [] then comp else floodAux cells fuel (comp ++ growth)

/-- The connected component of a seed cell. -/
def componentFrom (cells : List (Nat × Nat)) (seed : Nat × Nat) :
    List (Nat × Nat) :=
  floodAux cells cells.length [seed]

/-- Modelled from the spec: the connected components of the non-null mask in
row-major discovery order (the labels `skimage.measure.label` assigns). -/
def componentsOf {α : Type} (g : Grid α) : List (List (Nat × Nat)) :=
  let cells := maskCoords g
  cells.foldl (fun comps p =>
    if comps.any (fun comp => p ∈ comp) then comps
    else comps ++ [componentFrom cells p]) []

/-- An axis-aligned bounding box, `(x1, y1)` inclusive to `(x2, y2)`
exclusive (the `regionprops` `bbox` convention). -/
structure BBox where
  x1 : Nat
  y1 : Nat
  x2 : Nat
  y2 : Nat
deriving DecidableEq, Repr

/-- Embedding of `region.area_bbox`. -/
def BBox.area (b : BBox) : Nat :=
  (b.x2 - b.x1) * (b.y2 - b.y1)

/-- Embedding of `regionprops` bounding box of a component. -/
def bboxOf (comp : List (Nat × Nat)) : BBox :=
  match comp with
  | [] => ⟨0, 0, 0, 0⟩
  | p :: rest =>
      rest.foldl (fun b q =>
        ⟨min b.x1 q.1, min b.y1 q.2, max b.x2 (q.1 + 1), max b.y2 (q.2 + 1)⟩)
        ⟨p.1, p.2, p.1 + 1, p.2 + 1⟩

/-- Embedding of `SubframeExtractor.get_largest_region`: greedy scan with strict `>`
starting from `-inf` (modelled as `none`), so the first maximal-area region
wins; the empty list yields `-1`. -/
def getLargestRegion (regions : List BBox) : Int :=
  (regions.enum.foldl (fun acc p =>
      match acc.1 with
      | none => (some p.2.area, (p.1 : Int))
      | some m => if p.2.area > m then (some p.2.area, (p.1 : Int)) else acc)
    ((none : Option Nat), (-1 : Int))).2

/-- Embedding of `SubframeExtractor.fit`: label the mask, take the configured region
index (Python list indexing, negatives from the end) or the largest, and
unpack its bounding box; an out-of-range index raises `IndexError`. -/
def subframeFit {α : Type} (regionParam : Option Int) (g : Grid α) :
    Except Unit BBox :=
  let regions := (componentsOf g).map bboxOf
  let idx : Int :=
    match regionParam with
    | some i => i
    | none => getLargestRegion regions
  let j : Int := if idx < 0 then idx + regions.length else idx
  if j < 0 then .error ()
  else
    match regions.get? j.toNat with
    | some b => .ok b
    | none => .error ()

/-- Embedding of `X.iloc[x1:x2, y1:y2]`. -/
def sliceGrid {α : Type} (g : Grid α) (b : BBox) : Grid α :=
  ((g.drop b.x1).take (b.x2 - b.x1)).map
    (fun row => (row.drop b.y1).take (b.y2 - b.y1))

/-- Result of `transform`: promoted header labels (when configured) and the
data rows. -/
structure SubframeResult (α : Type) where
  header : Option (List (Option α))
  table : Grid α
deriving DecidableEq, Repr

/-- Embedding of `SubframeExtractor.transform`: slice the fitted bounding box; with a
header configured, promote the slice's first row to labels and drop it. -/
def subframeTransform {α : Type} (headerFlag : Bool) (b : BBox) (g : Grid α) :
    SubframeResult α :=
  let region := sliceGrid g b
  if headerFlag then
    { header := region.head?, table := region.drop 1 }
  else
    { header := none, table := region }

/-- Embedding of `SubframeExtractor.fit_transform` (region/header as constructed). -/
def subframeFitTransform {α : Type} (regionParam : Option Int)
    (headerFlag : Bool) (g : Grid α) : Except Unit (SubframeResult α) := do
  let b ← subframeFit regionParam g
  pure (subframeTransform headerFlag b g)

/-- A 2×2 grid whose single non-null cell sits at the origin: exactly one
connected component. -/
def oneCompGrid : Grid Nat :=
  [[some 0, none], [none, none]]

/-- C8 counterexample: `oneCompGrid` has exactly one connected component,
yet the extractor does not return the whole grid unchanged — it slices the
grid to the component's 1×1 bounding box.  There is no single-component
short-circuit in `SubframeExtractor`. -/
theorem c8_subframe_counterexample :
    (componentsOf oneCompGrid).length = 1 ∧
    subframeFitTransform none false oneCompGrid =
      .ok { header := none, table := [[some 0]] } ∧
    ([[some 0]] : Grid Nat) ≠ oneCompGrid := by
  exact ⟨rfl, rfl, by decide⟩

/-- C8 (amended): on a grid whose non-null mask forms exactly one connected
component, the extractor fits that component's bounding box and returns the
grid sliced to it — there is no short-circuit; the whole grid comes back
only when the bounding box spans the whole grid. -/
theorem c8_subframe_single_component :
    ∀ (g : Grid Nat) (comp : List (Nat × Nat)),
      componentsOf g = [comp] →
      subframeFit none g = .ok (bboxOf comp) ∧
      subframeFitTransform none false g =
        .ok { header := none, table := sliceGrid g (bboxOf comp) } := by
  intro g comp h
  have hfit : subframeFit (α := Nat) none g = .ok (bboxOf comp) := by
    unfold subframeFit
    rw [h]
    rfl
  refine ⟨hfit, ?_⟩
  unfold subframeFitTransform
  rw [hfit]
  rfl

/-- C8 witness: the amended conclusion at the concrete grid `oneCompGrid`. -/
theorem c8_subframe_single_component_witness :
    componentsOf oneCompGrid = [[(0, 0)]] ∧
    subframeFit none oneCompGrid = .ok (bboxOf [(0, 0)]) ∧
    subframeFitTransform none false oneCompGrid =
      .ok { header := none, table := sliceGrid oneCompGrid (bboxOf [(0, 0)]) } := by
  refine ⟨rfl, ?_⟩
  exact c8_subframe_single_component oneCompGrid [(0, 0)] rfl

end Monde
